import Mathlib

/-!
Shallow embedding of the SmartForm row-stream parser
(function parse_smartform of src/app/main.py).

The Python function makes a single pass over a list of row records,
tracking a current page / window / graphic, four deduplicating string
sets per container, the structural lists (rows / cells / texts / code)
of each window, and a pending code buffer.  The embedding below mirrors
the loop body branch for branch:

* Python dictionaries for pages / windows / graphics become structures;
  the aliasing of current_window / current_graphic into the pages list
  is modelled by a reference (index pair into the pages list, or a
  floating value for the degenerate path where a window or graphic is
  created with no current page and is attached to nothing).
* Python sets become Finset String; sorted() becomes an insertion sort
  along the code-point lexicographic order (for duplicate-free inputs
  and a total order the sorted permutation is unique, so any correct
  sort models sorted()).
* str.strip / str.upper / startswith / the two re.findall patterns are
  re-implemented over the character list of the string.  Word characters
  and whitespace are modelled at the ASCII level (the data the heuristics
  target); Python would additionally treat non-ASCII letters as word
  characters and a few exotic code points as whitespace.
* Rows missing one of the three consulted string fields are modelled by
  Option String fields, read through getD "" exactly like dict.get.

The local variables node / prev_node / prev_text of the source are dead
(assigned, never read) and are not carried in the state.
-/

/-- Python str.strip-style whitespace (ASCII part). -/
def isPySpace (c : Char) : Bool :=
  c = ' ' || c = '\t' || c = '\n' || c = '\r' || c = '\x0b' || c = '\x0c'

/-- Regex word character, class [A-Za-z0-9_] (ASCII model of \w / \b). -/
def isWordChar (c : Char) : Bool := c.isAlpha || c.isDigit || c = '_'

/-- Character class [A-Za-z0-9_./] of the FROM-table pattern. -/
def isFromIdentChar (c : Char) : Bool := isWordChar c || c = '.' || c = '/'

/-- Python str.strip : drop leading and trailing whitespace. -/
def pyStrip (s : String) : String :=
  ⟨((s.data.dropWhile isPySpace).reverse.dropWhile isPySpace).reverse⟩

/-- Python str.upper (ASCII model). -/
def pyUpper (s : String) : String := ⟨s.data.map Char.toUpper⟩

/-- Python str.startswith. -/
def pyStartsWith (s pre : String) : Bool := pre.data.isPrefixOf s.data

/-- Python substring containment (the `in` operator on strings). -/
def containsSub (pat : List Char) : List Char → Bool
  | [] => pat.isEmpty
  | c :: rest => pat.isPrefixOf (c :: rest) || containsSub pat rest

/-- Python "\n".join. -/
def joinNL : List String → String
  | [] => ""
  | [s] => s
  | s :: r :: rest => s ++ "\n" ++ joinNL (r :: rest)

/-- Code-point lexicographic comparison of character lists, the order
Python sorted() uses on strings. -/
def leChars : List Char → List Char → Bool
  | [], _ => true
  | _ :: _, [] => false
  | a :: as, b :: bs => if a = b then leChars as bs else decide (a < b)

/-- The lexicographic order on strings induced by leChars. -/
def pyLe (a b : String) : Prop := leChars a.data b.data = true

instance : DecidableRel pyLe := fun a b => instDecidableEqBool (leChars a.data b.data) true

theorem leChars_total (l₁ l₂ : List Char) : leChars l₁ l₂ = true ∨ leChars l₂ l₁ = true := by
  induction l₁ generalizing l₂ with
  | nil => left; rfl
  | cons a as ih =>
    cases l₂ with
    | nil => right; rfl
    | cons b bs =>
      by_cases hab : a = b
      · subst hab
        rcases ih bs with h | h
        · left; simpa [leChars] using h
        · right; simpa [leChars] using h
      · rcases lt_or_gt_of_ne hab with h | h
        · left; simp [leChars, hab, h]
        · right
          have hba : b ≠ a := fun e => hab e.symm
          simp [leChars, hba, h]

theorem leChars_trans {l₁ l₂ l₃ : List Char} (h₁ : leChars l₁ l₂ = true)
    (h₂ : leChars l₂ l₃ = true) : leChars l₁ l₃ = true := by
  induction l₁ generalizing l₂ l₃ with
  | nil => rfl
  | cons a as ih =>
    cases l₂ with
    | nil => simp [leChars] at h₁
    | cons b bs =>
      cases l₃ with
      | nil => simp [leChars] at h₂
      | cons c cs =>
        by_cases hab : a = b <;> by_cases hbc : b = c
        · subst hab; subst hbc
          simp only [leChars, if_pos rfl] at h₁ h₂ ⊢
          exact ih h₁ h₂
        · subst hab
          simp only [leChars, if_pos rfl] at h₁
          simpa [leChars, hbc] using h₂
        · subst hbc
          simpa [leChars, hab] using h₁
        · simp only [leChars, if_neg hab] at h₁
          simp only [leChars, if_neg hbc] at h₂
          have hac : a < c := lt_trans (of_decide_eq_true h₁) (of_decide_eq_true h₂)
          have : a ≠ c := ne_of_lt hac
          simp [leChars, this, hac]

theorem leChars_antisymm {l₁ l₂ : List Char} (h₁ : leChars l₁ l₂ = true)
    (h₂ : leChars l₂ l₁ = true) : l₁ = l₂ := by
  induction l₁ generalizing l₂ with
  | nil =>
    cases l₂ with
    | nil => rfl
    | cons b bs => simp [leChars] at h₂
  | cons a as ih =>
    cases l₂ with
    | nil => simp [leChars] at h₁
    | cons b bs =>
      by_cases hab : a = b
      · subst hab
        simp only [leChars, if_pos rfl] at h₁ h₂
        rw [ih h₁ h₂]
      · have hba : b ≠ a := fun e => hab e.symm
        simp only [leChars, if_neg hab] at h₁
        simp only [leChars, if_neg hba] at h₂
        exact absurd (lt_trans (of_decide_eq_true h₁) (of_decide_eq_true h₂)) (lt_irrefl a)

instance : IsTotal String pyLe := ⟨fun a b => leChars_total a.data b.data⟩
instance : IsTrans String pyLe := ⟨fun _ _ _ => leChars_trans⟩
instance : IsAntisymm String pyLe := ⟨fun a b h₁ h₂ => by
  cases a; cases b
  exact congrArg String.mk (leChars_antisymm h₁ h₂)⟩

/-- Python sorted() applied to a set of strings: the unique
duplicate-free pyLe-sorted enumeration of the set. -/
def sortedOfFinset (s : Finset String) : List String :=
  Quot.liftOn s.val (List.insertionSort pyLe) fun l₁ l₂ h =>
    List.eq_of_perm_of_sorted
      (((List.perm_insertionSort pyLe l₁).trans h).trans (List.perm_insertionSort pyLe l₂).symm)
      (List.sorted_insertionSort pyLe l₁) (List.sorted_insertionSort pyLe l₂)

theorem sortedOfFinset_sorted (s : Finset String) : List.Sorted pyLe (sortedOfFinset s) := by
  obtain ⟨m, hn⟩ := s
  induction m using Quot.ind with
  | _ l => exact List.sorted_insertionSort pyLe l

theorem sortedOfFinset_nodup (s : Finset String) : (sortedOfFinset s).Nodup := by
  obtain ⟨m, hn⟩ := s
  induction m using Quot.ind with
  | _ l =>
    exact ((List.perm_insertionSort pyLe l).nodup_iff).mpr (Multiset.coe_nodup.mp hn)

/-- re.findall of the pattern \b(wordchars+)-(wordchars+)\b over a
character list (the work-area field heuristic).  prevW records whether
the previous character was a word character (for the \b test); matches
are found left to right and do not overlap, exactly as re.findall. -/
def scanWA : List Char → Bool → List (String × String)
  | [], _ => []
  | c :: rest, prevW =>
    if isWordChar c then
      let r1 := rest.dropWhile isWordChar
      if prevW then scanWA r1 true
      else if r1.head? = some '-' then
        let b := r1.tail.takeWhile isWordChar
        if b.isEmpty then scanWA r1 true
        else (⟨c :: rest.takeWhile isWordChar⟩, ⟨b⟩) :: scanWA (r1.tail.dropWhile isWordChar) true
      else scanWA r1 true
    else scanWA rest false
termination_by l _ => l.length
decreasing_by
  all_goals
    simp only [List.length_cons]
    (try have h1 := (List.dropWhile_sublist (l := rest) isWordChar).length_le)
    (try have h2 := (List.tail_sublist (rest.dropWhile isWordChar)).length_le)
    (try have h3 := (List.dropWhile_sublist
        (l := (rest.dropWhile isWordChar).tail) isWordChar).length_le)
    omega

/-- re.findall of the pattern \bFROM\s+([A-Za-z0-9_./]+), IGNORECASE,
over a character list (the table-from-SQL heuristic). -/
def scanFROM : List Char → Bool → List String
  | [], _ => []
  | c :: rest, prevW =>
    if prevW then scanFROM rest (isWordChar c)
    else if c.toUpper = 'F' then
      match h : rest with
      | r :: o :: m :: l2 =>
        if r.toUpper = 'R' && o.toUpper = 'O' && m.toUpper = 'M' then
          let ws := l2.takeWhile isPySpace
          let l3 := l2.dropWhile isPySpace
          let ident := l3.takeWhile isFromIdentChar
          if ws.isEmpty || ident.isEmpty then scanFROM rest true
          else ⟨ident⟩ :: scanFROM (l3.dropWhile isFromIdentChar) (isWordChar (ident.getLastD 'a'))
        else scanFROM rest true
      | _ => scanFROM rest true
    else scanFROM rest (isWordChar c)
termination_by l _ => l.length
decreasing_by
  all_goals
    (try rw [h])
    simp only [List.length_cons]
    (try have h1 := (List.dropWhile_sublist (l := l2) isPySpace).length_le)
    (try have h2 := (List.dropWhile_sublist
        (l := l2.dropWhile isPySpace) isFromIdentChar).length_le)
    omega

/-- One input row (model SmartformRow of the source; the three string
fields the core consults are Option-valued so that a missing field can
be expressed, matching row.get(key, "")). -/
structure Row where
  ID : Int
  PARENT_ID : Int
  DEPTH : Int
  PATH : String
  ELEM_NAME : Option String
  ELEM_NS : String
  NODE_TYPE : Option String
  ATTRIBUTES : List String
  TEXT_PAYLOAD : Option String
deriving DecidableEq

/-- elem = row.get("ELEM_NAME", ""). -/
def rowElem (row : Row) : String := row.ELEM_NAME.getD ""

/-- text = (row.get("TEXT_PAYLOAD", "") or "").strip(). -/
def rowText (row : Row) : String := pyStrip (row.TEXT_PAYLOAD.getD "")

/-- In-progress window dictionary (with its accumulator sets). -/
structure WindowB where
  window_name : String
  rows : List String
  cells : List String
  texts : List String
  code : List String
  captions_set : Finset String
  fields_set : Finset String
  tables_set : Finset String
deriving DecidableEq

/-- In-progress graphic dictionary. -/
structure GraphicB where
  graphic_name : String
  captions_set : Finset String
  fields_set : Finset String
  tables_set : Finset String
deriving DecidableEq

/-- In-progress page dictionary. -/
structure PageB where
  page_name : String
  windows : List WindowB
  graphics : List GraphicB
deriving DecidableEq

/-- Finalized window (sets sorted into lists and discarded). -/
structure Window where
  window_name : String
  rows : List String
  cells : List String
  texts : List String
  code : List String
  captions : List String
  fields : List String
  tables : List String
deriving DecidableEq

/-- Finalized graphic. -/
structure Graphic where
  graphic_name : String
  captions : List String
  fields : List String
  tables : List String
deriving DecidableEq

/-- Finalized page. -/
structure Page where
  page_name : String
  windows : List Window
  graphics : List Graphic
deriving DecidableEq

/-- The value returned by parse_smartform. -/
structure SmartformResult where
  pages : List Page
deriving DecidableEq

/-- The Python variable current_window aliases either the window most
recently appended to some page (an index pair into the pages list) or a
window that was created with no current page and attached to nothing. -/
inductive WinRef where
  | attached (pi wi : Nat)
  | floating (w : WindowB)
deriving DecidableEq

/-- Same for current_graphic. -/
inductive GraphicRef where
  | attached (pi gi : Nat)
  | floating (g : GraphicB)
deriving DecidableEq

/-- The mutable locals of parse_smartform. -/
structure ParseState where
  pages : List PageB
  current_page : Option Nat
  current_window : Option WinRef
  current_graphic : Option GraphicRef
  capture_page : Bool
  capture_window : Bool
  capture_graphic : Bool
  last_page_name : Option String
  code_buffer : List String
deriving DecidableEq

/-- State at the top of the loop. -/
def initState : ParseState :=
  { pages := [], current_page := none, current_window := none, current_graphic := none,
    capture_page := false, capture_window := false, capture_graphic := false,
    last_page_name := none, code_buffer := [] }

/-- Update the i-th entry of a list in place (used to model mutation of
a page / window / graphic reached through an alias). -/
def updNth (f : α → α) : List α → Nat → List α
  | [], _ => []
  | x :: xs, 0 => f x :: xs
  | x :: xs, n + 1 => x :: updNth f xs n

/-- Mutation through the current_window alias. -/
def updateWindow (ref : WinRef) (f : WindowB → WindowB) (s : ParseState) : ParseState :=
  match ref with
  | .attached pi wi =>
    { s with pages := updNth (fun p => { p with windows := updNth f p.windows wi }) s.pages pi }
  | .floating w => { s with current_window := some (.floating (f w)) }

/-- Mutation through the current_graphic alias. -/
def updateGraphic (ref : GraphicRef) (f : GraphicB → GraphicB) (s : ParseState) : ParseState :=
  match ref with
  | .attached pi gi =>
    { s with pages := updNth (fun p => { p with graphics := updNth f p.graphics gi }) s.pages pi }
  | .floating g => { s with current_graphic := some (.floating (f g)) }

/-- The caption / name element allowlist of the source. -/
def capElems : List String := ["CAPTION", "FORMNAME", "NAME", "TYPENAME"]

/-- caption stanza: add "<elem>:<text>" when elem is allowlisted and text
is non-empty. -/
def addCaption (elem text : String) (cs : Finset String) : Finset String :=
  if capElems.contains elem && text != "" then insert (elem ++ ":" ++ text) cs else cs

/-- table stanzas: every (uppercased) FROM-clause match, then the raw
text when the TYPENAME heuristic fires. -/
def addTables (elem text : String) (ts : Finset String) : Finset String :=
  let ts := (scanFROM text.data false).foldl (fun ts t => insert (pyUpper t) ts) ts
  if elem == "TYPENAME" && (text.data.contains 'T' || containsSub "TAB".data (pyUpper text).data)
    then insert text ts else ts

/-- work-area field stanza: every match uppercased as "<wa>-<field>". -/
def addFields (text : String) (fs : Finset String) : Finset String :=
  (scanWA text.data false).foldl
    (fun fs p => insert (pyUpper p.1 ++ "-" ++ pyUpper p.2) fs) fs

/-- The four heuristic extractors run on every row while a window is
current (captions, tables from SQL, work-area fields, tables from TYPE
references).  The source mutates the three sets of the window dict in
place; the net effect on each set is recorded by one field update. -/
def extractWindow (elem text : String) (w : WindowB) : WindowB :=
  { w with
    captions_set := addCaption elem text w.captions_set,
    tables_set := addTables elem text w.tables_set,
    fields_set := addFields text w.fields_set }

/-- The same extractors for the current graphic (the source duplicates
the four extractor stanzas for the graphic block). -/
def extractGraphic (elem text : String) (g : GraphicB) : GraphicB :=
  { g with
    captions_set := addCaption elem text g.captions_set,
    tables_set := addTables elem text g.tables_set,
    fields_set := addFields text g.fields_set }

/-- The block guarded by if current_window: extraction, then structural
classification (%ROW / %CELL / %TEXT / item / fallback with code-buffer
flush).  Each branch performs one combined mutation of the current
window, equal to the source's sequence of in-place mutations. -/
def windowPhase (elem text : String) (s : ParseState) : ParseState :=
  match s.current_window with
  | none => s
  | some ref =>
    if pyStartsWith text "%ROW" then
      updateWindow ref (fun w =>
        let w := extractWindow elem text w
        { w with rows := w.rows ++ [text] }) s
    else if pyStartsWith text "%CELL" then
      updateWindow ref (fun w =>
        let w := extractWindow elem text w
        { w with cells := w.cells ++ [text] }) s
    else if pyStartsWith text "%TEXT" then
      updateWindow ref (fun w =>
        let w := extractWindow elem text w
        { w with texts := w.texts ++ [text] }) s
    else if elem == "item" && text != "" then
      { updateWindow ref (extractWindow elem text) s with
        code_buffer := s.code_buffer ++ [text] }
    else if s.code_buffer.isEmpty then
      updateWindow ref (extractWindow elem text) s
    else
      { updateWindow ref (fun w =>
          let w := extractWindow elem text w
          { w with code := w.code ++ [joinNL s.code_buffer] }) s with
        code_buffer := [] }

/-- The block guarded by if current_graphic. -/
def graphicPhase (elem text : String) (s : ParseState) : ParseState :=
  match s.current_graphic with
  | none => s
  | some gref => updateGraphic gref (extractGraphic elem text) s

/-- Number of windows of page pi (index the next window is appended at). -/
def winCount (pages : List PageB) (pi : Nat) : Nat :=
  (pages[pi]?.map (fun p => p.windows.length)).getD 0

/-- Number of graphics of page pi. -/
def grCount (pages : List PageB) (pi : Nat) : Nat :=
  (pages[pi]?.map (fun p => p.graphics.length)).getD 0

/-- One iteration of the row loop of parse_smartform. -/
def step (s : ParseState) (row : Row) : ParseState :=
  let elem := rowElem row
  let text := rowText row
  if elem == "NODETYPE" && text == "PA" then
    { s with capture_page := true }
  else if s.capture_page && elem == "INAME" then
    let s' := if some text == s.last_page_name then s
      else
        { s with
          pages := s.pages ++ [{ page_name := text, windows := [], graphics := [] }],
          current_page := some s.pages.length,
          last_page_name := some text }
    { s' with current_window := none, current_graphic := none, capture_page := false }
  else if elem == "NODETYPE" && text == "WI" then
    { s with capture_window := true }
  else if s.capture_window && elem == "INAME" then
    let w : WindowB :=
      { window_name := text, rows := [], cells := [], texts := [], code := [],
        captions_set := ∅, fields_set := ∅, tables_set := ∅ }
    match s.current_page with
    | some pi =>
      { s with
        pages := updNth (fun p => { p with windows := p.windows ++ [w] }) s.pages pi,
        current_window := some (.attached pi (winCount s.pages pi)),
        capture_window := false }
    | none => { s with current_window := some (.floating w), capture_window := false }
  else if elem == "NODETYPE" && text == "GR" then
    { s with capture_graphic := true }
  else if s.capture_graphic && elem == "INAME" then
    let g : GraphicB :=
      { graphic_name := text, captions_set := ∅, fields_set := ∅, tables_set := ∅ }
    match s.current_page with
    | some pi =>
      { s with
        pages := updNth (fun p => { p with graphics := p.graphics ++ [g] }) s.pages pi,
        current_graphic := some (.attached pi (grCount s.pages pi)),
        capture_graphic := false }
    | none => { s with current_graphic := some (.floating g), capture_graphic := false }
  else
    graphicPhase elem text (windowPhase elem text s)

/-- The whole row loop. -/
def processAll (rows : List Row) : ParseState := rows.foldl step initState

/-- Finalization of one window: sets sorted into lists, sets discarded. -/
def finalizeWindow (w : WindowB) : Window :=
  { window_name := w.window_name, rows := w.rows, cells := w.cells, texts := w.texts,
    code := w.code, captions := sortedOfFinset w.captions_set,
    fields := sortedOfFinset w.fields_set, tables := sortedOfFinset w.tables_set }

/-- Finalization of one graphic. -/
def finalizeGraphic (g : GraphicB) : Graphic :=
  { graphic_name := g.graphic_name, captions := sortedOfFinset g.captions_set,
    fields := sortedOfFinset g.fields_set, tables := sortedOfFinset g.tables_set }

/-- Finalization of one page. -/
def finalizePage (p : PageB) : Page :=
  { page_name := p.page_name, windows := p.windows.map finalizeWindow,
    graphics := p.graphics.map finalizeGraphic }

/-- The flush after the loop: if code_buffer and current_window, append
the joined buffer to the current window's code list. -/
def endFlush (s : ParseState) : ParseState :=
  match s.current_window with
  | some ref =>
    if s.code_buffer.isEmpty then s
    else updateWindow ref (fun w => { w with code := w.code ++ [joinNL s.code_buffer] }) s
  | none => s

/-- parse_smartform: run the loop, flush the code buffer into the
current window if both exist, then sort every accumulator set. -/
def parse_smartform (rows : List Row) : SmartformResult :=
  { pages := (endFlush (processAll rows)).pages.map finalizePage }

/-- A row carrying only the two fields the core consults in the claims
under study (remaining fields defaulted as the HTTP layer would). -/
def mkRow (e t : String) : Row :=
  { ID := 0, PARENT_ID := 0, DEPTH := 0, PATH := "", ELEM_NAME := some e,
    ELEM_NS := "", NODE_TYPE := some "", ATTRIBUTES := [], TEXT_PAYLOAD := some t }

/-- code list of window wi of page pi of a result. -/
def winCodeAt (res : SmartformResult) (pi wi : Nat) : Option (List String) :=
  res.pages[pi]?.bind fun p => (p.windows[wi]?).map (fun w => w.code)

/-- window_name of window wi of page pi of a result. -/
def winNameAt (res : SmartformResult) (pi wi : Nat) : Option String :=
  res.pages[pi]?.bind fun p => (p.windows[wi]?).map (fun w => w.window_name)

/-- code list of in-progress window wi of page pi of a state. -/
def stateWinCode (s : ParseState) (pi wi : Nat) : Option (List String) :=
  s.pages[pi]?.bind fun p => (p.windows[wi]?).map (fun w => w.code)

/-- A row the classifier sends to the code buffer: element name item,
non-empty stripped text, and none of the structural text markers. -/
abbrev isItemRow (r : Row) : Prop :=
  rowElem r = "item" ∧ (rowText r != "") = true ∧
  pyStartsWith (rowText r) "%ROW" = false ∧ pyStartsWith (rowText r) "%CELL" = false ∧
  pyStartsWith (rowText r) "%TEXT" = false

/-- A row that falls through the whole classifier (neither marker
element nor structural marker text nor an item row), so that it
triggers the pending-code flush. -/
abbrev isFlushRow (r : Row) : Prop :=
  rowElem r ≠ "NODETYPE" ∧ rowElem r ≠ "INAME" ∧
  pyStartsWith (rowText r) "%ROW" = false ∧ pyStartsWith (rowText r) "%CELL" = false ∧
  pyStartsWith (rowText r) "%TEXT" = false ∧
  (rowElem r == "item" && rowText r != "") = false

/-- Two consecutive Page-open marker sequences with the same name. -/
def pagePairRows (p : String) : List Row :=
  [mkRow "NODETYPE" "PA", mkRow "INAME" p, mkRow "NODETYPE" "PA", mkRow "INAME" p]

/-- Page-open marker followed by a %-prefixed INAME (the §8 scenario). -/
def c1rows : List Row := [mkRow "NODETYPE" "PA", mkRow "INAME" "%PAGE1"]

/-- A page, a window, one comment-looking item row, one fallback row. -/
def c2rows : List Row :=
  [mkRow "NODETYPE" "PA", mkRow "INAME" "P", mkRow "NODETYPE" "WI", mkRow "INAME" "W",
   mkRow "item" "* X", mkRow "OTHER" ""]

/-- State reached before the run used by the buffered-run witness. -/
def c2prefixRows : List Row :=
  [mkRow "NODETYPE" "PA", mkRow "INAME" "P", mkRow "NODETYPE" "WI", mkRow "INAME" "W"]

/-- An item run interrupted by a %ROW row, then resumed, then flushed. -/
def c3rows : List Row :=
  [mkRow "NODETYPE" "PA", mkRow "INAME" "P", mkRow "NODETYPE" "WI", mkRow "INAME" "W",
   mkRow "item" "A", mkRow "OTHER" "%ROW1", mkRow "item" "B", mkRow "OTHER" ""]

/-- An input that ends in the middle of an item run. -/
def c4rows : List Row :=
  [mkRow "NODETYPE" "PA", mkRow "INAME" "P", mkRow "NODETYPE" "WI", mkRow "INAME" "W",
   mkRow "item" "A"]

/-- An item row buffered in window W1, then window W2 opened, then a
fallback row. -/
def c7rows : List Row :=
  [mkRow "NODETYPE" "PA", mkRow "INAME" "P", mkRow "NODETYPE" "WI", mkRow "INAME" "W1",
   mkRow "item" "A", mkRow "NODETYPE" "WI", mkRow "INAME" "W2", mkRow "OTHER" ""]

/-- Python str.rstrip (ASCII model). -/
def pyRstrip (s : String) : String := ⟨(s.data.reverse.dropWhile isPySpace).reverse⟩

/-- Split a character list at newline characters. -/
def splitLinesAux (acc : List Char) : List Char → List String
  | [] => [⟨acc.reverse⟩]
  | c :: rest =>
    if c = '\n' then ⟨acc.reverse⟩ :: splitLinesAux [] rest
    else splitLinesAux (c :: acc) rest

/-- Modelled from the spec: the per-line cleanup §4.4 ascribes to the
code-block buffer (each line trimmed; a line starting with a star is
dropped; a line containing a double quote is truncated at its first
occurrence and right-trimmed; only surviving non-empty lines are kept).
This cleanup is absent from src/app/main.py; the definition exists only
to be compared against what the code does. -/
def specCleanLines (s : String) : List String :=
  (splitLinesAux [] s.data).filterMap fun line =>
    let line := pyStrip line
    if pyStartsWith line "*" then none
    else
      let line :=
        if line.data.contains '\"' then pyRstrip ⟨line.data.takeWhile (fun c => c ≠ '\"')⟩
        else line
      if line = "" then none else some line

/-- Replace a missing consulted field by an explicitly present empty
string (what row.get(key, "") makes the two indistinguishable from). -/
def fillRow (r : Row) : Row :=
  { r with ELEM_NAME := some (r.ELEM_NAME.getD ""),
           NODE_TYPE := some (r.NODE_TYPE.getD ""),
           TEXT_PAYLOAD := some (r.TEXT_PAYLOAD.getD "") }

/-- The loop body of the source reads row but contains no assignment to
row or rows; it therefore leaves the row it was given unchanged, which
this function records by returning the row next to the new state. -/
def loopBody (s : ParseState) (row : Row) : Row × ParseState := (row, step s row)

/-- parse_smartform together with the row list as the loop leaves it:
the caller's view of its argument after the call. -/
def parseTrack (rows : List Row) : List Row × SmartformResult :=
  let t := rows.foldl (fun acc row =>
    let rs := loopBody acc.2 row
    (acc.1 ++ [rs.1], rs.2)) (([] : List Row), initState)
  (t.1, { pages := (endFlush t.2).pages.map finalizePage })

/-- The one page / one window value produced from c2prefixRows. -/
def c6page : Page :=
  { page_name := "P",
    windows := [{ window_name := "W", rows := [], cells := [], texts := [], code := [],
                  captions := [], fields := [], tables := [] }],
    graphics := [] }

/-! Helper lemmas about updNth, the two phases and the step function. -/

theorem getElem?_updNth (f : α → α) (l : List α) (i j : Nat) :
    (updNth f l i)[j]? = if i = j then l[j]?.map f else l[j]? := by
  induction l generalizing i j with
  | nil => simp [updNth]
  | cons x xs ih =>
    cases i with
    | zero =>
      cases j with
      | zero => simp [updNth]
      | succ j => simp [updNth]
    | succ i =>
      cases j with
      | zero => simp [updNth]
      | succ j => simpa [updNth] using ih i j

theorem stateWinCode_updateWindow (s : ParseState) (pi wi : Nat) (f : WindowB → WindowB)
    (ext : List String → List String) (hf : ∀ w, (f w).code = ext w.code) :
    stateWinCode (updateWindow (.attached pi wi) f s) pi wi =
      (stateWinCode s pi wi).map ext := by
  cases hp : s.pages[pi]? with
  | none => simp [stateWinCode, updateWindow, getElem?_updNth, hp]
  | some p =>
    cases hw : p.windows[wi]? with
    | none => simp [stateWinCode, updateWindow, getElem?_updNth, hp, hw]
    | some w => simp [stateWinCode, updateWindow, getElem?_updNth, hp, hw, hf]

theorem stateWinCode_updateWindow_id (s : ParseState) (pi wi : Nat) (f : WindowB → WindowB)
    (hf : ∀ w, (f w).code = w.code) :
    stateWinCode (updateWindow (.attached pi wi) f s) pi wi = stateWinCode s pi wi := by
  have h := stateWinCode_updateWindow s pi wi f id hf
  simpa using h

theorem stateWinCode_updateGraphic (gref : GraphicRef) (g : GraphicB → GraphicB)
    (s : ParseState) (pi wi : Nat) :
    stateWinCode (updateGraphic gref g s) pi wi = stateWinCode s pi wi := by
  cases gref with
  | floating gg => rfl
  | attached pj gi =>
    by_cases hpj : pj = pi
    · subst hpj
      cases hp : s.pages[pj]? with
      | none => simp [stateWinCode, updateGraphic, getElem?_updNth, hp]
      | some p => simp [stateWinCode, updateGraphic, getElem?_updNth, hp]
    · simp [stateWinCode, updateGraphic, getElem?_updNth, hpj]

theorem graphicPhase_code_buffer (e t : String) (s : ParseState) :
    (graphicPhase e t s).code_buffer = s.code_buffer := by
  cases hcg : s.current_graphic with
  | none => simp [graphicPhase, hcg]
  | some gref => cases gref <;> simp [graphicPhase, hcg, updateGraphic]

theorem graphicPhase_current_window (e t : String) (s : ParseState) :
    (graphicPhase e t s).current_window = s.current_window := by
  cases hcg : s.current_graphic with
  | none => simp [graphicPhase, hcg]
  | some gref => cases gref <;> simp [graphicPhase, hcg, updateGraphic]

theorem graphicPhase_stateWinCode (e t : String) (s : ParseState) (pi wi : Nat) :
    stateWinCode (graphicPhase e t s) pi wi = stateWinCode s pi wi := by
  cases hcg : s.current_graphic with
  | none => simp [graphicPhase, hcg]
  | some gref => simp [graphicPhase, hcg, stateWinCode_updateGraphic]

theorem windowPhase_item_form (elem text : String) (s : ParseState) (ref : WinRef)
    (hcw : s.current_window = some ref)
    (h1 : pyStartsWith text "%ROW" = false) (h2 : pyStartsWith text "%CELL" = false)
    (h3 : pyStartsWith text "%TEXT" = false)
    (h4 : (elem == "item" && text != "") = true) :
    windowPhase elem text s =
      { updateWindow ref (extractWindow elem text) s with
        code_buffer := s.code_buffer ++ [text] } := by
  simp [windowPhase, hcw, h1, h2, h3, h4]

theorem windowPhase_flush_form (elem text : String) (s : ParseState) (ref : WinRef)
    (hcw : s.current_window = some ref)
    (h1 : pyStartsWith text "%ROW" = false) (h2 : pyStartsWith text "%CELL" = false)
    (h3 : pyStartsWith text "%TEXT" = false)
    (h4 : (elem == "item" && text != "") = false)
    (hbe : s.code_buffer.isEmpty = false) :
    windowPhase elem text s =
      { updateWindow ref (fun w =>
          let w := extractWindow elem text w
          { w with code := w.code ++ [joinNL s.code_buffer] }) s with
        code_buffer := [] } := by
  simp [windowPhase, hcw, h1, h2, h3, h4, hbe]

theorem windowPhase_row_form (elem text : String) (s : ParseState) (ref : WinRef)
    (hcw : s.current_window = some ref) (h1 : pyStartsWith text "%ROW" = true) :
    windowPhase elem text s =
      updateWindow ref (fun w =>
        let w := extractWindow elem text w
        { w with rows := w.rows ++ [text] }) s := by
  simp [windowPhase, hcw, h1]

theorem windowPhase_cell_form (elem text : String) (s : ParseState) (ref : WinRef)
    (hcw : s.current_window = some ref) (h1 : pyStartsWith text "%ROW" = false)
    (h2 : pyStartsWith text "%CELL" = true) :
    windowPhase elem text s =
      updateWindow ref (fun w =>
        let w := extractWindow elem text w
        { w with cells := w.cells ++ [text] }) s := by
  simp [windowPhase, hcw, h1, h2]

theorem windowPhase_text_form (elem text : String) (s : ParseState) (ref : WinRef)
    (hcw : s.current_window = some ref) (h1 : pyStartsWith text "%ROW" = false)
    (h2 : pyStartsWith text "%CELL" = false) (h3 : pyStartsWith text "%TEXT" = true) :
    windowPhase elem text s =
      updateWindow ref (fun w =>
        let w := extractWindow elem text w
        { w with texts := w.texts ++ [text] }) s := by
  simp [windowPhase, hcw, h1, h2, h3]

theorem step_nonmarker (s : ParseState) (r : Row)
    (h1 : (rowElem r == "NODETYPE") = false) (h2 : (rowElem r == "INAME") = false) :
    step s r = graphicPhase (rowElem r) (rowText r) (windowPhase (rowElem r) (rowText r) s) := by
  simp [step, h1, h2]

theorem step_item (s : ParseState) (r : Row) (pi wi : Nat)
    (hcw : s.current_window = some (.attached pi wi)) (hr : isItemRow r) :
    (step s r).code_buffer = s.code_buffer ++ [rowText r] ∧
    (step s r).current_window = some (.attached pi wi) ∧
    stateWinCode (step s r) pi wi = stateWinCode s pi wi := by
  obtain ⟨he, ht, h1, h2, h3⟩ := hr
  have e1 : (rowElem r == "NODETYPE") = false := by rw [he]; decide
  have e2 : (rowElem r == "INAME") = false := by rw [he]; decide
  have e4 : (rowElem r == "item" && rowText r != "") = true := by rw [he, ht]; decide
  have hs := step_nonmarker s r e1 e2
  have hw := windowPhase_item_form (rowElem r) (rowText r) s _ hcw h1 h2 h3 e4
  refine ⟨?_, ?_, ?_⟩
  · rw [hs, graphicPhase_code_buffer, hw]
  · rw [hs, graphicPhase_current_window, hw]; exact hcw
  · rw [hs, graphicPhase_stateWinCode, hw]
    exact stateWinCode_updateWindow_id s pi wi _ (fun w => rfl)

theorem step_flush (s : ParseState) (r : Row) (pi wi : Nat)
    (hcw : s.current_window = some (.attached pi wi)) (hr : isFlushRow r)
    (hbuf : s.code_buffer ≠ []) :
    (step s r).code_buffer = [] ∧
    (step s r).current_window = some (.attached pi wi) ∧
    stateWinCode (step s r) pi wi =
      (stateWinCode s pi wi).map (fun c => c ++ [joinNL s.code_buffer]) := by
  obtain ⟨hn1, hn2, h1, h2, h3, h4⟩ := hr
  have e1 : (rowElem r == "NODETYPE") = false := beq_eq_false_iff_ne.mpr hn1
  have e2 : (rowElem r == "INAME") = false := beq_eq_false_iff_ne.mpr hn2
  have hbe : s.code_buffer.isEmpty = false := by
    cases hb : s.code_buffer with
    | nil => exact absurd hb hbuf
    | cons a l => rfl
  have hs := step_nonmarker s r e1 e2
  have hw := windowPhase_flush_form (rowElem r) (rowText r) s _ hcw h1 h2 h3 h4 hbe
  refine ⟨?_, ?_, ?_⟩
  · rw [hs, graphicPhase_code_buffer, hw]
  · rw [hs, graphicPhase_current_window, hw]; exact hcw
  · rw [hs, graphicPhase_stateWinCode, hw]
    exact stateWinCode_updateWindow s pi wi _ (fun c => c ++ [joinNL s.code_buffer]) (fun w => rfl)

theorem itemRun (run : List Row) : ∀ (s : ParseState) (pi wi : Nat),
    s.current_window = some (.attached pi wi) → (∀ r ∈ run, isItemRow r) →
    (List.foldl step s run).code_buffer = s.code_buffer ++ run.map rowText ∧
    (List.foldl step s run).current_window = some (.attached pi wi) ∧
    stateWinCode (List.foldl step s run) pi wi = stateWinCode s pi wi := by
  induction run with
  | nil =>
    intro s pi wi hcw _
    exact ⟨by simp, hcw, rfl⟩
  | cons r rs ih =>
    intro s pi wi hcw hall
    have hr := hall r (List.mem_cons_self r rs)
    obtain ⟨hb, hw, hc⟩ := step_item s r pi wi hcw hr
    have hrest : ∀ x ∈ rs, isItemRow x := fun x hx => hall x (List.mem_cons_of_mem _ hx)
    obtain ⟨ihb, ihw, ihc⟩ := ih (step s r) pi wi hw hrest
    refine ⟨?_, ihw, ?_⟩
    · rw [List.foldl_cons, ihb, hb]
      simp
    · rw [List.foldl_cons, ihc, hc]

theorem winCodeAt_finalize (s : ParseState) (pi wi : Nat) :
    winCodeAt { pages := s.pages.map finalizePage } pi wi = stateWinCode s pi wi := by
  cases hp : s.pages[pi]? with
  | none => simp [winCodeAt, stateWinCode, List.getElem?_map, hp]
  | some p =>
    cases hw : p.windows[wi]? with
    | none => simp [winCodeAt, stateWinCode, List.getElem?_map, hp, finalizePage, hw]
    | some w =>
      simp [winCodeAt, stateWinCode, List.getElem?_map, hp, finalizePage, finalizeWindow, hw]

/-! The claim theorems. -/

/-- C1, counterexample: on the rows (NODETYPE,"PA"), (INAME,"%PAGE1")
parse returns exactly one page, but its page_name is "%PAGE1", not the
claimed "PAGE1": the code copies the stripped INAME text verbatim and
never removes a leading percent sign. -/
theorem C1_counterexample :
    (parse_smartform c1rows).pages.map Page.page_name = ["%PAGE1"] ∧
    "%PAGE1" ≠ "PAGE1" := by
  exact ⟨rfl, by decide⟩

/-- C1, as amended: a Page-open marker (NODETYPE row with text PA)
followed by an INAME row produces exactly one page whose page_name is
the INAME row's whitespace-stripped text verbatim, with no leading-%
stripping; in particular (NODETYPE,"PA"), (INAME,"%PAGE1") yields one
page named "%PAGE1". -/
theorem C1_page_name_verbatim (p : String) :
    parse_smartform [mkRow "NODETYPE" "PA", mkRow "INAME" p] =
      { pages := [{ page_name := pyStrip p, windows := [], graphics := [] }] } := rfl

/-- C2, counterexample: an item row whose text is the full-line comment
"* X" is appended to the window's code list verbatim, although the
claimed per-line cleanup (specCleanLines, modelled from the spec) drops
the line entirely and would leave no fragment at all. -/
theorem C2_counterexample :
    winCodeAt (parse_smartform c2rows) 0 0 = some ["* X"] ∧
    specCleanLines "* X" = [] ∧ ["* X"] ≠ ([] : List String) := by
  refine ⟨rfl, rfl, by decide⟩

/-- C2, as amended: for a contiguous run of item rows with non-empty
text processed while a window is current (starting from an empty
buffer) and flushed by a following fallback row, the fragment appended
to that window's code list is the newline-join of the rows' stripped
texts taken verbatim: no line is trimmed away, no line starting with
'*' is dropped and no truncation at '"' happens. -/
theorem C2_fragment_verbatim (s : ParseState) (pi wi : Nat) (run : List Row) (r' : Row)
    (hcw : s.current_window = some (.attached pi wi)) (hbuf : s.code_buffer = [])
    (hne : run ≠ []) (hitems : ∀ r ∈ run, isItemRow r) (hflush : isFlushRow r') :
    (List.foldl step s (run ++ [r'])).code_buffer = [] ∧
    stateWinCode (List.foldl step s (run ++ [r'])) pi wi =
      (stateWinCode s pi wi).map (fun c => c ++ [joinNL (run.map rowText)]) := by
  obtain ⟨hb, hw, hc⟩ := itemRun run s pi wi hcw hitems
  have hbuf' : (List.foldl step s run).code_buffer = run.map rowText := by
    rw [hb, hbuf]; simp
  have hnonempty : (List.foldl step s run).code_buffer ≠ [] := by
    rw [hbuf']
    intro hmap
    exact hne (List.map_eq_nil_iff.mp hmap)
  obtain ⟨fb, fw, fc⟩ := step_flush (List.foldl step s run) r' pi wi hw hflush hnonempty
  rw [List.foldl_append]
  constructor
  · simpa using fb
  · rw [hbuf'] at fc
    rw [hc] at fc
    simpa using fc

/-- C2, witness: the amended statement at the concrete state after
page P / window W, the run [item "A"] and the fallback row. -/
theorem C2_fragment_verbatim_witness :
    ((processAll c2prefixRows).current_window = some (.attached 0 0) ∧
      (processAll c2prefixRows).code_buffer = []) ∧
    ((List.foldl step (processAll c2prefixRows) ([mkRow "item" "A"] ++ [mkRow "OTHER" ""])).code_buffer = [] ∧
      stateWinCode
          (List.foldl step (processAll c2prefixRows) ([mkRow "item" "A"] ++ [mkRow "OTHER" ""])) 0 0 =
        (stateWinCode (processAll c2prefixRows) 0 0).map
          (fun c => c ++ [joinNL ([mkRow "item" "A"].map rowText)])) :=
  ⟨⟨by decide, by decide⟩,
   C2_fragment_verbatim (processAll c2prefixRows) 0 0 [mkRow "item" "A"] (mkRow "OTHER" "")
     (by decide) (by decide) (by decide) (by decide) (by decide)⟩

/-- C3, counterexample: the run item "A" is pending when the %ROW row
arrives; the claim says the buffer is flushed there, which would append
the entry "A".  Instead the buffer survives, the later item row "B"
joins it, and the only code entry is "A\nB" — no entry "A" exists. -/
theorem C3_counterexample :
    winCodeAt (parse_smartform c3rows) 0 0 = some ["A\nB"] ∧
    "A" ∉ (["A\nB"] : List String) := by
  refine ⟨rfl, by decide⟩

/-- C3, as amended: a row classified into the rows, cells or texts
structural lists neither flushes nor clears the pending code buffer and
appends nothing to the window's code list; the pending fragment is
appended only at a fallback row (or at stream end). -/
theorem C3_no_flush_at_structural (s : ParseState) (r : Row) (pi wi : Nat)
    (hcw : s.current_window = some (.attached pi wi))
    (hn1 : rowElem r ≠ "NODETYPE") (hn2 : rowElem r ≠ "INAME")
    (hst : (pyStartsWith (rowText r) "%ROW" || pyStartsWith (rowText r) "%CELL" ||
            pyStartsWith (rowText r) "%TEXT") = true) :
    (step s r).code_buffer = s.code_buffer ∧
    (step s r).current_window = some (.attached pi wi) ∧
    stateWinCode (step s r) pi wi = stateWinCode s pi wi := by
  have e1 : (rowElem r == "NODETYPE") = false := beq_eq_false_iff_ne.mpr hn1
  have e2 : (rowElem r == "INAME") = false := beq_eq_false_iff_ne.mpr hn2
  have hs := step_nonmarker s r e1 e2
  cases h1 : pyStartsWith (rowText r) "%ROW" with
  | true =>
    have hw := windowPhase_row_form (rowElem r) (rowText r) s _ hcw h1
    refine ⟨?_, ?_, ?_⟩
    · rw [hs, graphicPhase_code_buffer, hw]; rfl
    · rw [hs, graphicPhase_current_window, hw]; exact hcw
    · rw [hs, graphicPhase_stateWinCode, hw]
      exact stateWinCode_updateWindow_id s pi wi _ (fun w => rfl)
  | false =>
    cases h2 : pyStartsWith (rowText r) "%CELL" with
    | true =>
      have hw := windowPhase_cell_form (rowElem r) (rowText r) s _ hcw h1 h2
      refine ⟨?_, ?_, ?_⟩
      · rw [hs, graphicPhase_code_buffer, hw]; rfl
      · rw [hs, graphicPhase_current_window, hw]; exact hcw
      · rw [hs, graphicPhase_stateWinCode, hw]
        exact stateWinCode_updateWindow_id s pi wi _ (fun w => rfl)
    | false =>
      cases h3 : pyStartsWith (rowText r) "%TEXT" with
      | true =>
        have hw := windowPhase_text_form (rowElem r) (rowText r) s _ hcw h1 h2 h3
        refine ⟨?_, ?_, ?_⟩
        · rw [hs, graphicPhase_code_buffer, hw]; rfl
        · rw [hs, graphicPhase_current_window, hw]; exact hcw
        · rw [hs, graphicPhase_stateWinCode, hw]
          exact stateWinCode_updateWindow_id s pi wi _ (fun w => rfl)
      | false =>
        rw [h1, h2, h3] at hst
        simp at hst

/-- C3, witness: the amended statement at the concrete state after
page P / window W and the structural row "%ROW1". -/
theorem C3_no_flush_at_structural_witness :
    (processAll c2prefixRows).current_window = some (.attached 0 0) ∧
    ((step (processAll c2prefixRows) (mkRow "OTHER" "%ROW1")).code_buffer =
        (processAll c2prefixRows).code_buffer ∧
      (step (processAll c2prefixRows) (mkRow "OTHER" "%ROW1")).current_window =
        some (.attached 0 0) ∧
      stateWinCode (step (processAll c2prefixRows) (mkRow "OTHER" "%ROW1")) 0 0 =
        stateWinCode (processAll c2prefixRows) 0 0) :=
  ⟨by decide,
   C3_no_flush_at_structural (processAll c2prefixRows) (mkRow "OTHER" "%ROW1") 0 0
     (by decide) (by decide) (by decide) (by decide)⟩

/-- C4: whenever the loop ends with a current window and a non-empty
code buffer (as after an input whose final rows are an item run), the
buffer is flushed exactly once after the last row: the finalized code
list of that window is its in-progress code list with the newline-join
of the buffer appended. -/
theorem C4_stream_end_flush (rows : List Row) (pi wi : Nat)
    (hcw : (processAll rows).current_window = some (.attached pi wi))
    (hbuf : (processAll rows).code_buffer ≠ []) :
    winCodeAt (parse_smartform rows) pi wi =
      (stateWinCode (processAll rows) pi wi).map
        (fun c => c ++ [joinNL (processAll rows).code_buffer]) := by
  have hbe : (processAll rows).code_buffer.isEmpty = false := by
    cases hb : (processAll rows).code_buffer with
    | nil => exact absurd hb hbuf
    | cons a l => rfl
  have hef : endFlush (processAll rows) =
      updateWindow (.attached pi wi)
        (fun w => { w with code := w.code ++ [joinNL (processAll rows).code_buffer] })
        (processAll rows) := by
    simp [endFlush, hcw, hbe]
  calc winCodeAt (parse_smartform rows) pi wi
      = stateWinCode (endFlush (processAll rows)) pi wi := winCodeAt_finalize _ pi wi
    _ = (stateWinCode (processAll rows) pi wi).map
          (fun c => c ++ [joinNL (processAll rows).code_buffer]) := by
        rw [hef]
        exact stateWinCode_updateWindow _ pi wi _ _ (fun w => rfl)

/-- C4, witness: the input ending in the item row "A" (page P, window W)
really ends with window (0,0) current and buffer ["A"], and the final
code list is the flushed one. -/
theorem C4_stream_end_flush_witness :
    ((processAll c4rows).current_window = some (.attached 0 0) ∧
      (processAll c4rows).code_buffer ≠ []) ∧
    winCodeAt (parse_smartform c4rows) 0 0 =
      (stateWinCode (processAll c4rows) 0 0).map
        (fun c => c ++ [joinNL (processAll c4rows).code_buffer]) :=
  ⟨⟨by decide, by decide⟩, C4_stream_end_flush c4rows 0 0 (by decide) (by decide)⟩

/-- C5: from any state whose last page name differs from the incoming
one, two consecutive Page-open marker sequences (NODETYPE/PA then
INAME) with identical INAME texts append exactly one new page, and the
suppressed second sequence still resets the current window and current
graphic to absent. -/
theorem C5_consecutive_duplicate_page (s : ParseState) (p : String)
    (h : s.last_page_name ≠ some (pyStrip p)) :
    (List.foldl step s (pagePairRows p)).pages =
      s.pages ++ [{ page_name := pyStrip p, windows := [], graphics := [] }] ∧
    (List.foldl step s (pagePairRows p)).current_window = none ∧
    (List.foldl step s (pagePairRows p)).current_graphic = none := by
  have hb : (some (pyStrip p) == s.last_page_name) = false := by
    rw [beq_eq_false_iff_ne]
    exact fun e => h e.symm
  have h1 : step s (mkRow "NODETYPE" "PA") = { s with capture_page := true } := rfl
  have h2 : step { s with capture_page := true } (mkRow "INAME" p) =
      { s with
        pages := s.pages ++ [{ page_name := pyStrip p, windows := [], graphics := [] }],
        current_page := some s.pages.length,
        current_window := none, current_graphic := none,
        capture_page := false,
        last_page_name := some (pyStrip p) } := by
    simp [step, rowElem, rowText, mkRow, hb]
  have h3 : ∀ s' : ParseState, step s' (mkRow "NODETYPE" "PA") =
      { s' with capture_page := true } := fun s' => rfl
  simp only [pagePairRows, List.foldl_cons, List.foldl_nil, h1, h2, h3]
  simp [step, rowElem, rowText, mkRow]

/-- C5, witness: the statement at the initial state and the name "P1". -/
theorem C5_consecutive_duplicate_page_witness :
    initState.last_page_name ≠ some (pyStrip "P1") ∧
    ((List.foldl step initState (pagePairRows "P1")).pages =
        initState.pages ++ [{ page_name := pyStrip "P1", windows := [], graphics := [] }] ∧
      (List.foldl step initState (pagePairRows "P1")).current_window = none ∧
      (List.foldl step initState (pagePairRows "P1")).current_graphic = none) :=
  ⟨by decide, C5_consecutive_duplicate_page initState "P1" (by decide)⟩

/-- C6: in the returned structure the captions, fields and tables lists
of every window and every graphic of every page are sorted in the
code-point lexicographic order pyLe (the order Python sorted() applies
to strings) and contain no duplicates: they are the sorted enumerations
of the deduplicating accumulator sets and hence independent of any set
iteration order. -/
theorem C6_sorted_dedup_lists (rows : List Row) (pg : Page)
    (hpg : pg ∈ (parse_smartform rows).pages) :
    (∀ w ∈ pg.windows,
      (List.Sorted pyLe w.captions ∧ w.captions.Nodup) ∧
      (List.Sorted pyLe w.fields ∧ w.fields.Nodup) ∧
      (List.Sorted pyLe w.tables ∧ w.tables.Nodup)) ∧
    (∀ g ∈ pg.graphics,
      (List.Sorted pyLe g.captions ∧ g.captions.Nodup) ∧
      (List.Sorted pyLe g.fields ∧ g.fields.Nodup) ∧
      (List.Sorted pyLe g.tables ∧ g.tables.Nodup)) := by
  have hpg' : pg ∈ ((endFlush (processAll rows)).pages.map finalizePage) := hpg
  obtain ⟨pb, _, rfl⟩ := List.mem_map.mp hpg'
  constructor
  · intro w hw
    simp only [finalizePage, List.mem_map] at hw
    obtain ⟨wb, _, rfl⟩ := hw
    exact ⟨⟨sortedOfFinset_sorted _, sortedOfFinset_nodup _⟩,
           ⟨sortedOfFinset_sorted _, sortedOfFinset_nodup _⟩,
           ⟨sortedOfFinset_sorted _, sortedOfFinset_nodup _⟩⟩
  · intro g hg
    simp only [finalizePage, List.mem_map] at hg
    obtain ⟨gb, _, rfl⟩ := hg
    exact ⟨⟨sortedOfFinset_sorted _, sortedOfFinset_nodup _⟩,
           ⟨sortedOfFinset_sorted _, sortedOfFinset_nodup _⟩,
           ⟨sortedOfFinset_sorted _, sortedOfFinset_nodup _⟩⟩

/-- C6, witness: the statement at the page produced from
(NODETYPE,"PA"), (INAME,"P"), (NODETYPE,"WI"), (INAME,"W"). -/
theorem C6_sorted_dedup_lists_witness :
    c6page ∈ (parse_smartform c2prefixRows).pages ∧
    ((∀ w ∈ c6page.windows,
        (List.Sorted pyLe w.captions ∧ w.captions.Nodup) ∧
        (List.Sorted pyLe w.fields ∧ w.fields.Nodup) ∧
        (List.Sorted pyLe w.tables ∧ w.tables.Nodup)) ∧
      (∀ g ∈ c6page.graphics,
        (List.Sorted pyLe g.captions ∧ g.captions.Nodup) ∧
        (List.Sorted pyLe g.fields ∧ g.fields.Nodup) ∧
        (List.Sorted pyLe g.tables ∧ g.tables.Nodup))) :=
  ⟨by decide, C6_sorted_dedup_lists c2prefixRows c6page (by decide)⟩

/-- C7: marker rows do not flush or clear the pending code buffer — the
item row "A" is buffered while window W1 is current, window W2 is then
opened by a marker pair, and the fallback row flushes the fragment into
W2's code list: W1 ends with no code, W2 with ["A"]. -/
theorem C7_buffer_crosses_windows :
    winNameAt (parse_smartform c7rows) 0 0 = some "W1" ∧
    winNameAt (parse_smartform c7rows) 0 1 = some "W2" ∧
    winCodeAt (parse_smartform c7rows) 0 0 = some [] ∧
    winCodeAt (parse_smartform c7rows) 0 1 = some ["A"] :=
  ⟨rfl, rfl, rfl, rfl⟩

/-- C8: parse applied to the empty row sequence raises nothing (it is a
total function) and returns the structure with an empty pages list. -/
theorem C8_empty_input : parse_smartform [] = { pages := [] } := rfl

/-- C9: a row whose consulted string fields (ELEM_NAME, NODE_TYPE,
TEXT_PAYLOAD) are missing is processed exactly as if those fields were
present and empty: parse gives the same result on a row list whose
missing fields are replaced by "" — no failure, and the row takes part
in classification as an empty-text row. -/
theorem C9_missing_fields_default (rows : List Row) :
    parse_smartform (rows.map fillRow) = parse_smartform rows := by
  have hfold : ∀ (l : List Row) (s : ParseState),
      List.foldl step s (l.map fillRow) = List.foldl step s l := by
    intro l
    induction l with
    | nil => intro s; rfl
    | cons r rs ih =>
      intro s
      have hstep : step s (fillRow r) = step s r := rfl
      simp only [List.map_cons, List.foldl_cons, hstep, ih]
  unfold parse_smartform processAll
  rw [hfold]

/-- C10: parse never mutates its input — the loop body of the source
contains no write to row or rows, so the tracked run returns the very
row list it was given (all nine fields of every row unchanged), and a
second call on the rows as the first call left them yields the
identical output, which also equals parse_smartform of the input. -/
theorem C10_input_unchanged_idempotent (rows : List Row) :
    (parseTrack rows).1 = rows ∧
    parseTrack ((parseTrack rows).1) = parseTrack rows ∧
    (parseTrack rows).2 = parse_smartform rows := by
  have aux : ∀ (l : List Row) (acc : List Row) (s : ParseState),
      l.foldl (fun acc row =>
        let rs := loopBody acc.2 row
        (acc.1 ++ [rs.1], rs.2)) (acc, s)
        = (acc ++ l, List.foldl step s l) := by
    intro l
    induction l with
    | nil => intro acc s; simp
    | cons r rs ih =>
      intro acc s
      rw [List.foldl_cons, List.foldl_cons]
      exact (ih (acc ++ [r]) (step s r)).trans (by simp)
  have h1 : (parseTrack rows).1 = rows := by
    simp [parseTrack, aux]
  refine ⟨h1, by rw [h1], ?_⟩
  simp [parseTrack, parse_smartform, processAll, aux]
